import Mathlib

/-!
Verification of the MinuteLabs.io toolkit simulation core: the 2-D vector
algebra (`vector.js`), the velocity-Verlet integrator (`toolkit.js` /
`part_000`, class `VelocityVerlet`) and the frame-clock scheduler
(`part_000`, the `tick` function and the `onFrame` listener registry).

Numbers that the JavaScript code handles as IEEE doubles are modelled
exactly: the integrator and scheduler only use field operations, so they
are embedded over `ℚ` (keeping every definition executable); the vector
operations that take square roots are embedded over `ℝ`.
-/

-- ===========================================================
-- Vector library (vector.js, class Vector)
-- ===========================================================

/-- Embedding of the `Vector` class from `vector.js`: two components `x, y`.
Polymorphic in the scalar type so the integrator can use the exact `ℚ`
instance while the square-root operations use `ℝ`. -/
@[ext]
structure Vec (α : Type) where
  x : α
  y : α
deriving DecidableEq, Repr

namespace Vec

/-- Source `set(x, y)`: in the pure embedding, rebuilding the vector. -/
def set (_v : Vec α) (x y : α) : Vec α := ⟨x, y⟩

/-- Source `add(other)`: componentwise sum (mutating in JS, pure here). -/
def add [Add α] (v w : Vec α) : Vec α := ⟨v.x + w.x, v.y + w.y⟩

/-- Source `subtract(other)`: componentwise difference. -/
def subtract [Sub α] (v w : Vec α) : Vec α := ⟨v.x - w.x, v.y - w.y⟩

/-- Source `multiply(number)`: scale both components. -/
def multiply [Mul α] (v : Vec α) (n : α) : Vec α := ⟨v.x * n, v.y * n⟩

/-- Source `times(number)`: `clone().multiply(number)`; pure, so equal to
`multiply`. -/
def times [Mul α] (v : Vec α) (n : α) : Vec α := v.multiply n

/-- Source `dot(vector)`: `x * vector.x + y * vector.y`. -/
def dot [Mul α] [Add α] (v w : Vec α) : α := v.x * w.x + v.y * w.y

/-- Source `normSq()`: `x * x + y * y`. -/
def normSq [Mul α] [Add α] (v : Vec α) : α := v.x * v.x + v.y * v.y

/-- Source `norm()`: `Math.sqrt(this.normSq())`. -/
noncomputable def norm (v : Vec ℝ) : ℝ := Real.sqrt v.normSq

/-- Source `setNorm(n)`: computes the norm; if it is zero, snaps to the
canonical unit vector `(1, 0)` with norm `1`; then scales by `n / norm`.
The single zero-guard `if` of the source assigns `norm`, `x` and `y`; the
three `if`s below share its condition. -/
noncomputable def setNorm (v : Vec ℝ) (n : ℝ) : Vec ℝ :=
  let norm0 := v.norm
  let norm1 := if norm0 = 0 then 1 else norm0
  let x := if norm0 = 0 then (1 : ℝ) else v.x
  let y := if norm0 = 0 then (0 : ℝ) else v.y
  let n1 := n / norm1
  ⟨x * n1, y * n1⟩

/-- Source `normalize()`: `setNorm(1)`. -/
noncomputable def normalize (v : Vec ℝ) : Vec ℝ := v.setNorm 1

/-- Source `proj(vector)`: `other = vector.clone().normalize();
other.multiply(this.dot(other))`. -/
noncomputable def proj (v vector : Vec ℝ) : Vec ℝ :=
  let other := vector.normalize
  other.multiply (v.dot other)

/-- Source `projScalar(vector)`: `this.dot(vector) / vector.norm()`. -/
noncomputable def projScalar (v vector : Vec ℝ) : ℝ := v.dot vector / vector.norm

/-- Source `clampedProj(vector)`: `other.multiply(Math.min(n, Math.max(0,
this.dot(other))))` where `n = vector.norm()` and `other` is the normalized
target. -/
noncomputable def clampedProj (v vector : Vec ℝ) : Vec ℝ :=
  let n := vector.norm
  let other := vector.normalize
  other.multiply (min n (max 0 (v.dot other)))

/-- Source `reflect(normal)`: `n = normal.normSq();
this.subtract(normal.times(2 * this.dot(normal) / n))`. -/
noncomputable def reflect (v normal : Vec ℝ) : Vec ℝ :=
  let n := normal.normSq
  v.subtract (normal.times (2 * v.dot normal / n))

end Vec

-- ===========================================================
-- Velocity-Verlet integrator (toolkit.js / part_000, class VelocityVerlet)
-- ===========================================================

/-- Embedding of a simulated body as the integrator uses it: `position`,
`velocity`, `acceleration` vectors, the `oldAcc` cache (lazily allocated in
JS, always overwritten by `oldAcc.copy(obj.acceleration)` before being
read, so a plain zero-initialised field here), and the optional mass `m`
(the JS reads it as `obj.m || 1`, see `effMass`). -/
structure Body where
  position : Vec ℚ
  velocity : Vec ℚ
  acceleration : Vec ℚ
  oldAcc : Vec ℚ
  m : ℚ
deriving DecidableEq, Repr

/-- Source `let m = obj.m || 1`: a zero (or absent, encoded `0`) mass falls
back to `1`. -/
def effMass (obj : Body) : ℚ := if obj.m = 0 then 1 else obj.m

/-- Stage 1 of `integrate(dt)` for a single body: cache
`oldAcc = acceleration`, shift the position by
`((1/2) * acceleration * dt + velocity) * dt`, and reset the acceleration
to `(0, 0)` in anticipation of stage 2. -/
def stage1 (dt : ℚ) (obj : Body) : Body :=
  let halfDt := 1/2 * dt
  { obj with
      oldAcc := obj.acceleration
      position := obj.position.add
        (((obj.acceleration.multiply halfDt).add obj.velocity).multiply dt)
      acceleration := obj.acceleration.set 0 0 }

/-- Stage 3 of `integrate(dt)` for a single body: shift the velocity by
`(1/2) * (oldAcc + acceleration) * dt`. -/
def stage3 (dt : ℚ) (obj : Body) : Body :=
  let halfDt := 1/2 * dt
  { obj with velocity := obj.velocity.add ((obj.oldAcc.add obj.acceleration).multiply halfDt) }

/-- Interaction functions mutate the body collection in JS; in the pure
embedding each one maps the collection (and `dt`) to the updated
collection. -/
def Interaction : Type := List Body → ℚ → List Body

/-- Embedding of the `VelocityVerlet` integrator state. The constructor
sets `maxSteps = 20`, the given `stepSize` (default `8`), the borrowed
body collection, `time = 0` and an empty interaction list; `kinetic` is
written by `integrate` (undefined before the first call in JS, `0` here).
The scratch vector `this.tmp` has no observable state and is dropped. -/
structure VelocityVerlet where
  maxSteps : ℕ
  stepSize : ℚ
  objects : List Body
  time : ℚ
  interactions : List Interaction
  kinetic : ℚ

/-- Source constructor `new VelocityVerlet(objects, stepSize = 8)`. -/
def VelocityVerlet.mkNew (objects : List Body) (stepSize : ℚ := 8) : VelocityVerlet :=
  { maxSteps := 20, stepSize := stepSize, objects := objects, time := 0,
    interactions := [], kinetic := 0 }

/-- Source `interact(dt)`: run every registered interaction function in
registration order over the body collection. -/
def interact (objs : List Body) (fns : List Interaction) (dt : ℚ) : List Body :=
  fns.foldl (fun os f => f os dt) objs

/-- Source `integrate(dt)`: stage 1 over all bodies, then the interaction
functions, then stage 3 over all bodies while accumulating
`kinetic += 0.5 * m * velocity.normSq()` (reset to `0` first, each term
using that body's already-updated velocity). -/
def VelocityVerlet.integrate (s : VelocityVerlet) (dt : ℚ) : VelocityVerlet :=
  let objs1 := s.objects.map (stage1 dt)
  let objs2 := interact objs1 s.interactions dt
  let r := objs2.foldl
    (fun (acc : List Body × ℚ) obj =>
      let obj2 := stage3 dt obj
      (acc.1 ++ [obj2], acc.2 + 1/2 * effMass obj * obj2.velocity.normSq))
    ([], 0)
  { s with objects := r.1, kinetic := r.2 }

/-- Source `onInteraction(fn)`: append to the ordered interaction list. -/
def VelocityVerlet.onInteraction (s : VelocityVerlet) (fn : Interaction) : VelocityVerlet :=
  { s with interactions := s.interactions ++ [fn] }

/-- The `for (; now < target; now += stepSize) { this.time = now;
this.integrate(stepSize) }` loop of `step`, with explicit fuel (the JS
loop is unbounded; `step` passes fuel `maxSteps + 1`, which
`stepLoop_spec` shows is never exhausted when `0 < stepSize`, so the
fuelled loop agrees with the source loop at every call site of `step`).
Returns the final state, the final value of `now`, and the trace of `dt`
arguments passed to `integrate`. -/
def stepLoop : ℕ → VelocityVerlet → ℚ → ℚ → ℚ → VelocityVerlet × ℚ × List ℚ
  | 0, st, _, now, _ => (st, now, [])
  | fuel + 1, st, stepSize, now, target =>
    if now < target then
      let r := stepLoop fuel (({ st with time := now }).integrate stepSize)
        stepSize (now + stepSize) target
      (r.1, r.2.1, stepSize :: r.2.2)
    else
      (st, now, [])

/-- Source `step(dt)`, instrumented to also return the ordered list of
`dt` arguments passed to `integrate` (the sub-step trace): substitute
`dt = stepSize` when `!dt`; clamp the starting point to
`target - maxSteps * stepSize` when `dt` exceeds that budget; run the
sub-step loop; and if `now` did not land on `target`, stamp
`time = target` and integrate the difference `target - now`. -/
def VelocityVerlet.stepTrace (st : VelocityVerlet) (dt0 : ℚ) : VelocityVerlet × List ℚ :=
  let stepSize := st.stepSize
  let dt := if dt0 = 0 then stepSize else dt0
  let maxTime := (st.maxSteps : ℚ) * stepSize
  let target := st.time + dt
  let now := if dt > maxTime then target - maxTime else st.time
  let r := stepLoop (st.maxSteps + 1) st stepSize now target
  if r.2.1 ≠ target then
    (({ r.1 with time := target }).integrate (target - r.2.1), r.2.2 ++ [target - r.2.1])
  else
    (r.1, r.2.2)

/-- Source `step(dt)`: the state part of `stepTrace`. -/
def VelocityVerlet.step (st : VelocityVerlet) (dt : ℚ) : VelocityVerlet :=
  (st.stepTrace dt).1

/-- Drive an integrator through a sequence of `step(Δt)` calls. -/
def runSteps (st : VelocityVerlet) (dts : List ℚ) : VelocityVerlet :=
  dts.foldl VelocityVerlet.step st

-- ===========================================================
-- Frame clock (part_000: tick / onFrame)
-- ===========================================================

/-- Per-listener frame-clock state, the `opts` object of `onFrame` in
`part_000` (`fps`, `correction`, `deltaSampleSize`, `counterTimestamp`,
`frameCounter`, `deltaHistory`, `timePrev` (initially `null`),
`timeScalePrev`, `isFixed`, `timeScale`, plus the `delta` / `deltaMin` /
`deltaMax` values filled in at registration). -/
structure Runner where
  fps : ℚ
  correction : ℚ
  deltaSampleSize : ℕ
  counterTimestamp : ℚ
  frameCounter : ℕ
  deltaHistory : List ℚ
  timePrev : Option ℚ
  timeScalePrev : ℚ
  isFixed : Bool
  timeScale : ℚ
  delta : ℚ
  deltaMin : ℚ
  deltaMax : ℚ

/-- JavaScript `array.slice(-n)` as used on the delta history: the last
`n` elements; `slice(-0)` is `slice(0)`, the whole array (and `drop`
truncates at `0` for `n` larger than the length, as `slice` does). -/
def jsSliceLast (l : List ℚ) (n : ℕ) : List ℚ :=
  if n = 0 then l else l.drop (l.length - n)

/-- JavaScript `Math.min.apply(null, history)` on the (always nonempty at
the call site: a push just happened) delta history; `[]` is unreachable
and mapped to `0`. -/
def listMin : List ℚ → ℚ
  | [] => 0
  | a :: t => t.foldl min a

/-- The two sequential clamp statements of `tick`:
`delta = delta < deltaMin ? deltaMin : delta` then
`delta = delta > deltaMax ? deltaMax : delta`. -/
def clampDelta (deltaMin deltaMax d : ℚ) : ℚ :=
  let d1 := if d < deltaMin then deltaMin else d
  if d1 > deltaMax then deltaMax else d1

/-- Source `tick(time, runner)` from `part_000` (the Modified Runner tick):
fixed mode delivers `runner.delta`; dynamic mode computes the wall-clock
delta `(time - runner.timePrev) || runner.delta` (JS coerces the initial
`null` to `0`, and `||` falls back on a zero difference), pushes it into
the history, keeps the last `deltaSampleSize` samples, takes the minimum,
clamps it to `[deltaMin, deltaMax]` and stores it back into
`runner.delta`; both modes then apply the time-scale correction and the
1-second fps counter. Returns the delivered delta and the updated runner. -/
def tick (time : ℚ) (runner : Runner) : ℚ × Runner :=
  let timeScale := runner.timeScale
  let dcr : ℚ × ℚ × Runner :=
    if runner.isFixed then
      (runner.delta, 1, runner)
    else
      let d0 := time - runner.timePrev.getD 0
      let delta0 := if d0 = 0 then runner.delta else d0
      let hist := jsSliceLast (runner.deltaHistory ++ [delta0]) runner.deltaSampleSize
      let delta1 := listMin hist
      let delta2 := if delta1 < runner.deltaMin then runner.deltaMin else delta1
      let delta3 := if delta2 > runner.deltaMax then runner.deltaMax else delta2
      let correction := delta3 / runner.delta
      (delta3, correction,
        { runner with timePrev := some time, deltaHistory := hist, delta := delta3 })
  let delta := dcr.1
  let corr0 := dcr.2.1
  let r1 := dcr.2.2
  let corr1 := if r1.timeScalePrev ≠ 0 then corr0 * (timeScale / r1.timeScalePrev)
               else corr0
  let corr2 := if timeScale = 0 then 0 else corr1
  let r2 := { r1 with
    timeScalePrev := timeScale,
    correction := corr2,
    frameCounter := r1.frameCounter + 1 }
  let r3 :=
    if time - r2.counterTimestamp ≥ 1000 then
      { r2 with
        fps := (r2.frameCounter : ℚ) * ((time - r2.counterTimestamp) / 1000),
        counterTimestamp := time,
        frameCounter := 0 }
    else r2
  (delta, r3)

/-- What `animate` hands the listener callback: `o.fn(dt *
o.opts.timeScale, now, o.opts)`, i.e. the tick result scaled by the
listener's time scale. -/
def delivered (time : ℚ) (r : Runner) : ℚ := (tick time r).1 * r.timeScale

-- ===========================================================
-- Frame listener registry (onFrame registration / unregistration)
-- ===========================================================

/-- A JavaScript value stored in (or compared against) the `listeners`
array: either a bare callback (`toolkit.js` pushes `fn` itself) or the
`{ fn, opts }` wrapper object that the `part_000` version pushes.
Constructor distinctness models JS strict equality: a function is never
`===` an object literal. -/
inductive JsRef where
  | fnRef (id : ℕ)
  | wrapper (fn : ℕ) (opts : ℕ)
deriving DecidableEq, Repr

/-- JavaScript `listeners.indexOf(x)`: index of the first strictly-equal
element, `-1` when there is none. -/
def jsIndexOf : List JsRef → JsRef → Int
  | [], _ => -1
  | a :: t, x =>
    if a = x then 0
    else if jsIndexOf t x = -1 then -1 else jsIndexOf t x + 1

/-- JavaScript `listeners.splice(start, 1)` for the two shapes `indexOf`
produces: `start = -1` removes the last element (a no-op on an empty
array), `start ≥ 0` removes the element at that index. -/
def jsSplice1 (l : List JsRef) (start : Int) : List JsRef :=
  if start < 0 then l.dropLast else l.take start.toNat ++ l.drop (start.toNat + 1)

/-- Registration in the `part_000` `onFrame`: `listeners.push({ fn, opts })`. -/
def onFrameRegister (listeners : List JsRef) (fn opts : ℕ) : List JsRef :=
  listeners ++ [JsRef.wrapper fn opts]

/-- The `stop` handle of the `part_000` `onFrame`:
`listeners.splice(listeners.indexOf(fn), 1)` — note it searches for the
bare callback `fn`, not for the `{ fn, opts }` wrapper that was pushed. -/
def onFrameStop (listeners : List JsRef) (fn : ℕ) : List JsRef :=
  jsSplice1 listeners (jsIndexOf listeners (JsRef.fnRef fn))

/-- Registration in the `toolkit.js` `onFrame`: `listeners.push(fn)`. -/
def onFrameRegisterSimple (listeners : List JsRef) (fn : ℕ) : List JsRef :=
  listeners ++ [JsRef.fnRef fn]

/-- The `stop` handle of the `toolkit.js` `onFrame`: same splice of
`indexOf(fn)`, but there the array holds the bare callbacks. -/
def onFrameStopSimple (listeners : List JsRef) (fn : ℕ) : List JsRef :=
  jsSplice1 listeners (jsIndexOf listeners (JsRef.fnRef fn))

-- ===========================================================
-- Concrete fixtures for witnesses and counterexamples
-- ===========================================================

/-- A body at the origin moving with unit velocity along `x`. -/
def demoBody : Body :=
  { position := ⟨0, 0⟩, velocity := ⟨1, 0⟩, acceleration := ⟨0, 0⟩, oldAcc := ⟨0, 0⟩, m := 1 }

/-- A freshly constructed integrator over `demoBody` with the default
`stepSize = 8` (hence `maxSteps = 20`, `time = 0`). -/
def demoVerlet : VelocityVerlet := VelocityVerlet.mkNew [demoBody]

/-- A freshly constructed body-less integrator, default `stepSize = 8`,
used to evaluate the `step` clock bookkeeping concretely. -/
def calibVerlet : VelocityVerlet := VelocityVerlet.mkNew []

/-- First of two identically-built integrators (same bodies, same
`stepSize`, same interaction list in the same order). -/
def verletA : VelocityVerlet := (VelocityVerlet.mkNew [demoBody]).onInteraction (fun objs _ => objs)

/-- Second of two identically-built integrators. -/
def verletB : VelocityVerlet := (VelocityVerlet.mkNew [demoBody]).onInteraction (fun objs _ => objs)

/-- A dynamic-mode runner as `onFrame` builds it for
`{ deltaSampleSize: 5, deltaMax: 33 }` and default `fps = 60` (so
`delta = deltaMin = 1000/60`), caught mid-stream: four raw deltas
`[16, 16, 16, 200]` already recorded and the previous tick at `t = 1000`. -/
def demoRunner : Runner :=
  { fps := 60, correction := 1, deltaSampleSize := 5, counterTimestamp := 0,
    frameCounter := 0, deltaHistory := [16, 16, 16, 200], timePrev := some 1000,
    timeScalePrev := 1, isFixed := false, timeScale := 1,
    delta := 50/3, deltaMin := 50/3, deltaMax := 33 }

-- ===========================================================
-- Helper lemmas
-- ===========================================================

/-- `integrate` only rewrites `objects` and `kinetic`; the clock is
untouched. -/
theorem integrate_time (s : VelocityVerlet) (dt : ℚ) : (s.integrate dt).time = s.time := rfl

/-- Characterisation of the fuelled sub-step loop: with enough fuel
(`target ≤ now + fuel * s`, available at every call site of `step` when
`0 < stepSize`) it performs some number `k` of `integrate(s)` sub-steps, leaves
`now` at `now + k * s` (the first value not short of `target`), and — as
the body stamps `this.time = now` before each sub-step — leaves the
state's clock at the start of the last sub-step, `now + (k - 1) * s`. -/
theorem stepLoop_spec (s : ℚ) :
    ∀ (fuel : ℕ) (st : VelocityVerlet) (now target : ℚ),
      target ≤ now + fuel * s →
      ∃ k : ℕ,
        (stepLoop fuel st s now target).2.2 = List.replicate k s ∧
        (stepLoop fuel st s now target).2.1 = now + k * s ∧
        target ≤ now + k * s ∧
        (k = 0 → (stepLoop fuel st s now target).1 = st) ∧
        (0 < k → now + ((k : ℚ) - 1) * s < target ∧
          ((stepLoop fuel st s now target).1).time = now + ((k : ℚ) - 1) * s) := by
  intro fuel
  induction fuel with
  | zero =>
    intro st now target h
    refine ⟨0, by simp [stepLoop], by simp [stepLoop], ?_, fun _ => rfl, by simp⟩
    simpa using h
  | succ fuel ih =>
    intro st now target h
    by_cases hlt : now < target
    · have h' : target ≤ (now + s) + fuel * s := by push_cast at h ⊢; linarith
      obtain ⟨k, h1, h2, h3, h4, h5⟩ :=
        ih (({ st with time := now }).integrate s) (now + s) target h'
      refine ⟨k + 1, ?_, ?_, ?_, ?_, ?_⟩
      · simp only [stepLoop, if_pos hlt, List.replicate_succ]
        simpa using h1
      · simp only [stepLoop, if_pos hlt]
        simp only [h2]
        push_cast
        ring
      · push_cast
        linarith
      · intro hk0
        exact absurd hk0 (Nat.succ_ne_zero k)
      · intro _
        simp only [stepLoop, if_pos hlt]
        rcases Nat.eq_zero_or_pos k with hk | hk
        · subst hk
          have hst : (stepLoop fuel (({ st with time := now }).integrate s) s (now + s) target).1
              = ({ st with time := now }).integrate s := h4 rfl
          constructor
          · push_cast
            simpa using hlt
          · rw [hst, integrate_time]
            push_cast
            ring_nf
        · obtain ⟨hlt2, htime⟩ := h5 hk
          have hcast : (1 : ℚ) ≤ (k : ℚ) := by exact_mod_cast hk
          constructor
          · push_cast
            linarith
          · rw [htime]
            push_cast
            ring
    · refine ⟨0, ?_, ?_, ?_, ?_, by simp⟩
      · simp [stepLoop, hlt]
      · simp [stepLoop, hlt]
      · simpa using le_of_not_lt hlt
      · intro _
        simp [stepLoop, hlt]

/-- Behaviour of `step(dt)` for `0 < dt ≤ maxSteps * stepSize` (no budget
clamp): the loop performs `k = ⌈dt / stepSize⌉` full sub-steps, ending at
`now = time + k * stepSize`; when `dt` is an exact multiple of `stepSize`
the remainder branch is skipped and the clock stays at the start of the
last sub-step (`time + dt - stepSize`); otherwise the remainder branch
stamps the clock to `time + dt` and integrates the (negative) difference
`dt - k * stepSize`. -/
theorem stepTrace_spec (st : VelocityVerlet) (dt : ℚ) (hs : 0 < st.stepSize)
    (h0 : 0 < dt) (hm : dt ≤ (st.maxSteps : ℚ) * st.stepSize) :
    ∃ k : ℕ, 0 < k ∧ ((k : ℚ) - 1) * st.stepSize < dt ∧ dt ≤ (k : ℚ) * st.stepSize ∧
      (dt = (k : ℚ) * st.stepSize →
        (st.stepTrace dt).2 = List.replicate k st.stepSize ∧
        (st.step dt).time = st.time + dt - st.stepSize) ∧
      (dt ≠ (k : ℚ) * st.stepSize →
        (st.stepTrace dt).2 = List.replicate k st.stepSize ++ [dt - (k : ℚ) * st.stepSize] ∧
        (st.step dt).time = st.time + dt) := by
  have hdt0 : ¬ dt = 0 := ne_of_gt h0
  have hcl : ¬ dt > (st.maxSteps : ℚ) * st.stepSize := not_lt.mpr hm
  have hfuel : st.time + dt ≤ st.time + ((st.maxSteps + 1 : ℕ) : ℚ) * st.stepSize := by
    push_cast
    nlinarith
  obtain ⟨k, h1, h2, h3, h4, h5⟩ :=
    stepLoop_spec st.stepSize (st.maxSteps + 1) st st.time (st.time + dt) hfuel
  have hi1 : (if dt = 0 then st.stepSize else dt) = dt := if_neg hdt0
  have hi2 : (if dt > (st.maxSteps : ℚ) * st.stepSize
      then st.time + dt - (st.maxSteps : ℚ) * st.stepSize else st.time) = st.time :=
    if_neg hcl
  have hkpos : 0 < k := by
    rcases Nat.eq_zero_or_pos k with h | h
    · subst h
      simp only [Nat.cast_zero, zero_mul, add_zero] at h3
      linarith
    · exact h
  obtain ⟨hlow, htime⟩ := h5 hkpos
  refine ⟨k, hkpos, by linarith, by linarith, ?_, ?_⟩
  · intro hmul
    have hnow : (stepLoop (st.maxSteps + 1) st st.stepSize st.time (st.time + dt)).2.1
        = st.time + dt := by rw [h2, hmul]
    constructor
    · simp only [VelocityVerlet.stepTrace, hi1, hi2]
      rw [if_neg (by simp [hnow]), h1]
    · simp only [VelocityVerlet.step, VelocityVerlet.stepTrace, hi1, hi2]
      rw [if_neg (by simp [hnow])]
      rw [htime, hmul]
      ring
  · intro hmul
    have hnow : (stepLoop (st.maxSteps + 1) st st.stepSize st.time (st.time + dt)).2.1
        ≠ st.time + dt := by
      rw [h2]
      intro hcontra
      exact hmul (by linarith)
    constructor
    · simp only [VelocityVerlet.stepTrace, hi1, hi2]
      rw [if_pos hnow, h1, h2]
      simp only [List.append_cancel_left_eq, List.cons.injEq, and_true]
      ring
    · simp only [VelocityVerlet.step, VelocityVerlet.stepTrace, hi1, hi2]
      rw [if_pos hnow, integrate_time]

-- ===========================================================
-- Claim theorems: integrator time budget (C1, C2, C3, C10)
-- ===========================================================

/-- Evaluation lemma behind C1: with `maxSteps = 20` and `stepSize = 8`,
`step(1000)` performs exactly 20 full sub-steps of size 8 and no
remainder sub-step (the clamped span is an exact multiple of the step
size, so the remainder branch is skipped), and the clock ends at
`initial + 992` (the start of the last sub-step). -/
theorem step_1000_eval (st : VelocityVerlet) (hms : st.maxSteps = 20)
    (hss : st.stepSize = 8) :
    (st.stepTrace 1000).2 = List.replicate 20 (8 : ℚ) ∧
    (st.step 1000).time = st.time + 992 := by
  have hfuel : st.time + 1000 ≤ (st.time + 1000 - 160) + ((20 + 1 : ℕ) : ℚ) * 8 := by
    push_cast
    linarith
  obtain ⟨k, h1, h2, h3, h4, h5⟩ :=
    stepLoop_spec 8 (20 + 1) st (st.time + 1000 - 160) (st.time + 1000) hfuel
  have hkpos : 0 < k := by
    rcases Nat.eq_zero_or_pos k with h | h
    · subst h
      simp only [Nat.cast_zero, zero_mul, add_zero] at h3
      linarith
    · exact h
  obtain ⟨hlow, htime⟩ := h5 hkpos
  have hk20 : k = 20 := by
    have hklt : (k : ℚ) < 21 := by linarith
    have hkge : (20 : ℚ) ≤ (k : ℚ) := by linarith
    have hklt' : k < 21 := by exact_mod_cast hklt
    have hkge' : 20 ≤ k := by exact_mod_cast hkge
    omega
  subst hk20
  have hnow : (stepLoop (20 + 1) st 8 (st.time + 1000 - 160) (st.time + 1000)).2.1
      = st.time + 1000 := by
    rw [h2]
    push_cast
    ring
  have e1 : (if (1000 : ℚ) = 0 then (8 : ℚ) else 1000) = 1000 := by norm_num
  have e2 : (if (1000 : ℚ) > ((20 : ℕ) : ℚ) * 8
      then st.time + 1000 - ((20 : ℕ) : ℚ) * 8 else st.time) = st.time + 1000 - 160 := by
    norm_num
  constructor
  · simp only [VelocityVerlet.stepTrace, hms, hss, e1, e2]
    rw [if_neg (by simp [hnow])]
    exact h1
  · simp only [VelocityVerlet.step, VelocityVerlet.stepTrace, hms, hss, e1, e2]
    rw [if_neg (by simp [hnow]), htime]
    push_cast
    ring

/-- C1 counterexample: on a fresh integrator (`maxSteps = 20`,
`stepSize = 8`, `time = 0`), a single `step(1000)` leaves
`simulationTime` at `992`, not at `initial + 1000` as the claim states. -/
theorem step_budget_1000_cex :
    (calibVerlet.step 1000).time = 992 ∧
    (calibVerlet.step 1000).time ≠ calibVerlet.time + 1000 := by
  have h := (step_1000_eval calibVerlet rfl rfl).2
  have ht : calibVerlet.time = 0 := rfl
  rw [ht] at h ⊢
  rw [h]
  norm_num

/-- C1 (amended): for any integrator with `maxSteps = 20` and
`stepSize = 8`, a single `step(1000)` performs exactly 20 full sub-steps
of size 8 and no remainder sub-step (consistent with the claimed
sub-step bound), but `simulationTime` ends at `initial + 992`, not
`initial + 1000`: the loop stamps the clock at the start of each
sub-step, and the remainder branch that would stamp `target` is skipped
because the clamped span `maxSteps * stepSize = 160` is an exact multiple
of the step size. -/
theorem step_budget_1000 (st : VelocityVerlet) (hms : st.maxSteps = 20)
    (hss : st.stepSize = 8) :
    (st.stepTrace 1000).2 = List.replicate 20 (8 : ℚ) ∧
    (st.step 1000).time = st.time + 992 :=
  step_1000_eval st hms hss

/-- C1 witness: the amended statement evaluated on the concrete fresh
integrator. -/
theorem step_budget_1000_witness :
    (calibVerlet.stepTrace 1000).2 = List.replicate 20 (8 : ℚ) ∧
    (calibVerlet.step 1000).time = calibVerlet.time + 992 :=
  step_budget_1000 calibVerlet rfl rfl

/-- C2 counterexample: `step(8)` on a fresh integrator with
`stepSize = 8` leaves `simulationTime` unchanged at `0` instead of
advancing it by `8`: the single loop iteration stamps the clock at the
sub-step start and the remainder branch (`now !== target`) is skipped. -/
theorem step_time_exact_cex :
    (calibVerlet.step 8).time = calibVerlet.time ∧
    (calibVerlet.step 8).time ≠ calibVerlet.time + 8 := by
  obtain ⟨k, hkpos, hlow, hup, hmul, _⟩ :=
    stepTrace_spec calibVerlet 8 (by norm_num [calibVerlet, VelocityVerlet.mkNew])
      (by norm_num) (by norm_num [calibVerlet, VelocityVerlet.mkNew])
  have hss : calibVerlet.stepSize = 8 := rfl
  rw [hss] at hlow hup hmul
  have hk1 : k = 1 := by
    have h1 : (k : ℚ) < 2 := by linarith
    have h2 : (0 : ℚ) < (k : ℚ) := by exact_mod_cast hkpos
    have h1' : k < 2 := by exact_mod_cast h1
    omega
  subst hk1
  have htime := (hmul (by norm_num)).2
  constructor
  · rw [htime]
    ring
  · rw [htime]
    intro h
    have : (8 : ℚ) = 16 := by linarith
    norm_num at this


/-- C2 (amended): for `0 < Δt ≤ maxSteps * stepSize` and a positive step
size, `step(Δt)` repeatedly integrates `stepSize` while the running time
is short of `target`, and `simulationTime` lands exactly on
`target = initial + Δt` only when `Δt` is NOT an exact positive multiple
of `stepSize` (the remainder branch fires and stamps `target`); when `Δt`
is an exact multiple the remainder branch is skipped and `simulationTime`
ends one step short, at `initial + Δt - stepSize`. -/
theorem step_time_exact (st : VelocityVerlet) (dt : ℚ) (hs : 0 < st.stepSize)
    (h0 : 0 < dt) (hm : dt ≤ (st.maxSteps : ℚ) * st.stepSize) :
    ((∃ j : ℕ, dt = (j : ℚ) * st.stepSize) →
      (st.step dt).time = st.time + dt - st.stepSize) ∧
    ((¬ ∃ j : ℕ, dt = (j : ℚ) * st.stepSize) →
      (st.step dt).time = st.time + dt) := by
  obtain ⟨k, hkpos, hlow, hup, hmul, hnmul⟩ := stepTrace_spec st dt hs h0 hm
  constructor
  · rintro ⟨j, hj⟩
    have h1 : (j : ℚ) * st.stepSize ≤ (k : ℚ) * st.stepSize := hj ▸ hup
    have h2 : ((k : ℚ) - 1) * st.stepSize < (j : ℚ) * st.stepSize := hj ▸ hlow
    have hj1 : (j : ℚ) ≤ (k : ℚ) := le_of_mul_le_mul_right h1 hs
    have hj2 : (k : ℚ) - 1 < (j : ℚ) := lt_of_mul_lt_mul_right h2 hs.le
    have hj1' : j ≤ k := by exact_mod_cast hj1
    have hj2' : k < j + 1 := by
      have : (k : ℚ) < (j : ℚ) + 1 := by linarith
      exact_mod_cast this
    have hjk : j = k := by omega
    exact (hmul (hjk ▸ hj)).2
  · intro hne
    have hdk : dt ≠ (k : ℚ) * st.stepSize := fun h => hne ⟨k, h⟩
    exact (hnmul hdk).2

/-- C2 witness: `step(12)` (not a multiple of `stepSize = 8`) on the
fresh integrator does advance the clock by exactly `12`. -/
theorem step_time_exact_witness :
    (calibVerlet.step 12).time = calibVerlet.time + 12 := by
  have h := step_time_exact calibVerlet 12 (by norm_num [calibVerlet, VelocityVerlet.mkNew])
    (by norm_num) (by norm_num [calibVerlet, VelocityVerlet.mkNew])
  refine h.2 ?_
  rintro ⟨j, hj⟩
  have hss : calibVerlet.stepSize = 8 := rfl
  rw [hss] at hj
  rcases j with _ | _ | j
  · norm_num at hj
  · norm_num at hj
  · have hge : (0 : ℚ) ≤ (j : ℚ) := by positivity
    push_cast at hj
    nlinarith

/-- Evaluation lemma behind C3: with `maxSteps = 20` and `stepSize = 8`,
`step(20)` performs three full sub-steps `integrate(8)` (overshooting the
target by 4) followed by one rewinding remainder sub-step
`integrate(-4)`, and lands the clock exactly on `initial + 20`. -/
theorem step_20_eval (st : VelocityVerlet) (hms : st.maxSteps = 20)
    (hss : st.stepSize = 8) :
    (st.stepTrace 20).2 = [(8 : ℚ), 8, 8, -4] ∧
    (st.step 20).time = st.time + 20 := by
  have hm : (20 : ℚ) ≤ (st.maxSteps : ℚ) * st.stepSize := by
    rw [hms, hss]
    norm_num
  obtain ⟨k, hkpos, hlow, hup, hmul, hnmul⟩ :=
    stepTrace_spec st 20 (by rw [hss]; norm_num) (by norm_num) hm
  rw [hss] at hlow hup hmul hnmul
  have hk3 : k = 3 := by
    have h1 : (k : ℚ) < 4 := by linarith
    have h2 : (2 : ℚ) < (k : ℚ) := by linarith
    have h1' : k < 4 := by exact_mod_cast h1
    have h2' : 2 < k := by exact_mod_cast h2
    omega
  subst hk3
  obtain ⟨htr, hti⟩ := hnmul (by norm_num)
  refine ⟨?_, hti⟩
  rw [htr]
  norm_num [List.replicate]

/-- C3 counterexample: on the concrete fresh integrator, the trace of
`integrate` arguments for `step(20)` is `[8, 8, 8, -4]` — three full
sub-steps and a negative remainder — not the claimed two full sub-steps
plus a remainder of `4`. -/
theorem step_20_remainder_cex :
    (calibVerlet.stepTrace 20).2 = [(8 : ℚ), 8, 8, -4] ∧
    (calibVerlet.stepTrace 20).2 ≠ [(8 : ℚ), 8, 4] := by
  have h := (step_20_eval calibVerlet rfl rfl).1
  refine ⟨h, ?_⟩
  rw [h]
  intro hcontra
  simp at hcontra

/-- C3 (amended): with `stepSize = 8` (and the constructor's
`maxSteps = 20`), `step(20)` performs exactly three full sub-steps
`integrate(8)` — the loop runs while `now < target`, so it overshoots to
24 — followed by exactly one remainder sub-step `integrate(-4)` that
stamps the clock back onto `initial + 20`. -/
theorem step_20_remainder (st : VelocityVerlet) (hms : st.maxSteps = 20)
    (hss : st.stepSize = 8) :
    (st.stepTrace 20).2 = [(8 : ℚ), 8, 8, -4] ∧
    (st.step 20).time = st.time + 20 :=
  step_20_eval st hms hss

/-- C3 witness: the amended statement evaluated on the concrete fresh
integrator. -/
theorem step_20_remainder_witness :
    (calibVerlet.stepTrace 20).2 = [(8 : ℚ), 8, 8, -4] ∧
    (calibVerlet.step 20).time = calibVerlet.time + 20 :=
  step_20_remainder calibVerlet rfl rfl

/-- C10: `step(0)` (and `step()` with no argument, `dt` coerced falsy) is
not a no-op: `if (!dt) dt = stepSize` substitutes a full step, and the
call performs exactly one sub-step `integrate(stepSize)` — the resulting
state is exactly `integrate(stepSize)` of the current state (in
particular the clock is left unchanged: the loop stamps the sub-step
start, and the remainder branch is skipped). -/
theorem step_zero_substep (st : VelocityVerlet) (hs : 0 < st.stepSize)
    (hm : 1 ≤ st.maxSteps) :
    st.stepTrace 0 = (st.integrate st.stepSize, [st.stepSize]) := by
  obtain ⟨m, hm'⟩ := Nat.exists_eq_add_of_le hm
  have h01 : st.stepTrace 0 = st.stepTrace st.stepSize := by
    simp only [VelocityVerlet.stepTrace, ite_self]
    norm_num
  have hle : st.stepSize ≤ (st.maxSteps : ℚ) * st.stepSize := by
    have h1 : (1 : ℚ) ≤ (st.maxSteps : ℚ) := by exact_mod_cast hm
    nlinarith
  have hi1 : (if st.stepSize = 0 then st.stepSize else st.stepSize) = st.stepSize :=
    ite_self st.stepSize
  have hi2 : (if st.stepSize > (st.maxSteps : ℚ) * st.stepSize
      then st.time + st.stepSize - (st.maxSteps : ℚ) * st.stepSize else st.time) = st.time :=
    if_neg (not_lt.mpr hle)
  have c1 : st.time < st.time + st.stepSize := by linarith
  have c2 : ¬ (st.time + st.stepSize < st.time + st.stepSize) := lt_irrefl _
  have hloop : stepLoop (st.maxSteps + 1) st st.stepSize st.time (st.time + st.stepSize)
      = ((({ st with time := st.time }).integrate st.stepSize),
          st.time + st.stepSize, [st.stepSize]) := by
    have hfuel : st.maxSteps + 1 = m + 1 + 1 := by omega
    rw [hfuel]
    simp only [stepLoop, if_pos c1, if_neg c2]
  rw [h01]
  simp only [VelocityVerlet.stepTrace, hi1, hi2, hloop]
  rw [if_neg (by simp)]

/-- C10 witness: on the demo integrator (a single body moving at unit
speed), `step(0)` substitutes `dt = stepSize`, performs the single
sub-step, and visibly changes the simulation (the body leaves the
origin). -/
theorem step_zero_substep_witness :
    demoVerlet.stepTrace 0 = (demoVerlet.integrate demoVerlet.stepSize, [demoVerlet.stepSize]) ∧
    (demoVerlet.step 0).objects ≠ demoVerlet.objects := by
  have h := step_zero_substep demoVerlet (by norm_num [demoVerlet, VelocityVerlet.mkNew])
    (by norm_num [demoVerlet, VelocityVerlet.mkNew])
  refine ⟨h, ?_⟩
  have h2 : demoVerlet.step 0 = demoVerlet.integrate demoVerlet.stepSize := by
    simp only [VelocityVerlet.step, h]
  rw [h2]
  norm_num [VelocityVerlet.integrate, demoVerlet, demoBody, VelocityVerlet.mkNew, interact,
    stage1, stage3, effMass, Vec.add, Vec.multiply, Vec.set, Vec.normSq,
    Body.mk.injEq, Vec.mk.injEq]

-- ===========================================================
-- Claim theorem: determinism (C4)
-- ===========================================================

/-- C4: determinism as a two-run property. Two integrators with identical
body states, step size, interaction list (same functions in the same
order — pure by construction in this embedding), sub-step budget, clock
and kinetic-energy cache, driven by the same sequence of `step(Δt)`
calls, have identical body states (hence positions, velocities and
accelerations) and identical `kineticEnergy` after the whole sequence —
and, since the quantifier ranges over every `dts`, after every prefix of
it, i.e. after each call. -/
theorem verlet_determinism (st1 st2 : VelocityVerlet)
    (hobj : st1.objects = st2.objects) (hss : st1.stepSize = st2.stepSize)
    (hint : st1.interactions = st2.interactions) (hms : st1.maxSteps = st2.maxSteps)
    (ht : st1.time = st2.time) (hk : st1.kinetic = st2.kinetic) :
    ∀ dts : List ℚ,
      (runSteps st1 dts).objects = (runSteps st2 dts).objects ∧
      (runSteps st1 dts).kinetic = (runSteps st2 dts).kinetic := by
  have h : st1 = st2 := by
    cases st1
    cases st2
    simp_all
  subst h
  exact fun _ => ⟨rfl, rfl⟩

/-- C4 witness: two identically-built integrators (same body, same
`stepSize = 8`, same single interaction function) agree after the call
sequence `step(16)`, `step(20)`. -/
theorem verlet_determinism_witness :
    (runSteps verletA [16, 20]).objects = (runSteps verletB [16, 20]).objects ∧
    (runSteps verletA [16, 20]).kinetic = (runSteps verletB [16, 20]).kinetic :=
  verlet_determinism verletA verletB rfl rfl rfl rfl rfl rfl [16, 20]

-- ===========================================================
-- Claim theorems: frame clock (C5)
-- ===========================================================

/-- C5 counterexample: the runner configured as in the claim
(`deltaSampleSize = 5`, `deltaMax = 33`, default `deltaMin = 1000/60`)
whose history becomes `[16,16,16,200,16]` delivers `min(history) = 16`
raised to `deltaMin = 50/3 ≈ 16.7` — not `33`: the minimum filter already
discards the `200` spike, so the `deltaMax` clamp never engages. -/
theorem tick_smoothing_cex :
    delivered 1016 demoRunner = 50 / 3 ∧ delivered 1016 demoRunner ≠ 33 := by
  have h : delivered 1016 demoRunner = 50 / 3 := by
    norm_num [delivered, tick, demoRunner, jsSliceLast, listMin, min_def]
  refine ⟨h, ?_⟩
  rw [h]
  norm_num

/-- C5 (amended): in dynamic mode the delivered delta is
`min(updated history)` clamped to `[deltaMin, deltaMax]` (then scaled by
the listener's `timeScale`); on the claim's concrete history
`[16,16,16,200,16]` this evaluates to `max(16, deltaMin)`, not `33` and
not `200`. -/
theorem tick_min_clamp (time : ℚ) (r : Runner) (hf : r.isFixed = false) :
    (tick time r).1 = clampDelta r.deltaMin r.deltaMax
        (listMin (jsSliceLast (r.deltaHistory ++
          [if time - r.timePrev.getD 0 = 0 then r.delta
           else time - r.timePrev.getD 0]) r.deltaSampleSize)) ∧
    delivered time r = (tick time r).1 * r.timeScale := by
  constructor
  · simp only [tick, clampDelta, hf, Bool.false_eq_true, if_false]
  · rfl

/-- C5 witness: the amended statement evaluated on the concrete runner at
the tick `t = 1016`. -/
theorem tick_min_clamp_witness :
    demoRunner.isFixed = false ∧
    (tick 1016 demoRunner).1 = clampDelta demoRunner.deltaMin demoRunner.deltaMax
        (listMin (jsSliceLast (demoRunner.deltaHistory ++
          [if 1016 - demoRunner.timePrev.getD 0 = 0 then demoRunner.delta
           else 1016 - demoRunner.timePrev.getD 0]) demoRunner.deltaSampleSize)) :=
  ⟨rfl, (tick_min_clamp 1016 demoRunner rfl).1⟩

-- ===========================================================
-- Claim theorems: listener unregistration (C6)
-- ===========================================================

/-- C6 (code-bug evaluation): in the `part_000` `onFrame`, register
listener `0` (opts `0`) then listener `1` (opts `1`); invoking listener
`0`'s unregister handle removes listener `1`'s entry — the
last-registered one — and leaves listener `0` registered.
`listeners.indexOf(fn)` compares the raw callback against the
`{ fn, opts }` wrapper objects, never finds it, returns `-1`, and
`splice(-1, 1)` deletes the final element. -/
theorem onFrame_stop_removes_wrong_listener :
    onFrameStop (onFrameRegister (onFrameRegister [] 0 0) 1 1) 0
      = [JsRef.wrapper 0 0] ∧
    onFrameStop (onFrameRegister (onFrameRegister [] 0 0) 1 1) 0
      ≠ [JsRef.wrapper 1 1] := by decide

/-- Location of the first occurrence under the JS `indexOf` model. -/
theorem jsIndexOf_append (pre post : List JsRef) (x : JsRef) (hpre : x ∉ pre) :
    jsIndexOf (pre ++ x :: post) x = (pre.length : Int) := by
  induction pre with
  | nil => simp [jsIndexOf]
  | cons a t ih =>
    have ha : a ≠ x := fun h => hpre (h ▸ List.mem_cons_self a t)
    have ht : x ∉ t := fun h => hpre (List.mem_cons_of_mem a h)
    have hrec := ih ht
    have hne : ¬ (jsIndexOf (t ++ x :: post) x = -1) := by
      rw [hrec]
      omega
    simp only [List.cons_append, jsIndexOf, List.append_eq, if_neg ha, if_neg hne, hrec,
      List.length_cons]
    push_cast
    ring

/-- By contrast, the `toolkit.js` `onFrame` (which pushes the callbacks
themselves) removes exactly the listener the handle was created for: the
first occurrence of `fn`, leaving every other listener in place. -/
theorem onFrameStopSimple_removes_registered (pre post : List JsRef) (fn : ℕ)
    (hpre : JsRef.fnRef fn ∉ pre) :
    onFrameStopSimple (pre ++ JsRef.fnRef fn :: post) fn = pre ++ post := by
  simp only [onFrameStopSimple, jsIndexOf_append pre post (JsRef.fnRef fn) hpre]
  have hnn : ¬ ((pre.length : Int) < 0) := by omega
  simp only [jsSplice1, if_neg hnn, Int.toNat_natCast]
  have h1 : (pre ++ JsRef.fnRef fn :: post).take pre.length = pre := List.take_left pre _
  have h2 : (pre ++ JsRef.fnRef fn :: post).drop (pre.length + 1) = post := by
    have he : pre ++ JsRef.fnRef fn :: post = (pre ++ [JsRef.fnRef fn]) ++ post := by simp
    have hlen : (pre ++ [JsRef.fnRef fn]).length = pre.length + 1 := by simp
    rw [he, ← hlen, List.drop_left]
  rw [h1, h2]

-- ===========================================================
-- Claim theorems: vector library (C7, C8, C9)
-- ===========================================================

/-- Norm-square of a nonzero vector is strictly positive. -/
theorem normSq_pos (v : Vec ℝ) (hv : v ≠ ⟨0, 0⟩) : 0 < v.normSq := by
  rcases v with ⟨x, y⟩
  have h : x ≠ 0 ∨ y ≠ 0 := by
    by_contra h
    push_neg at h
    exact hv (by simp [h.1, h.2])
  simp only [Vec.normSq]
  rcases h with h | h
  · nlinarith [mul_self_pos.mpr h, mul_self_nonneg y]
  · nlinarith [mul_self_pos.mpr h, mul_self_nonneg x]

/-- Auxiliary: `normalize` of the zero vector takes the guarded branch of
`setNorm` and returns exactly `(1, 0)`; no division by zero occurs, since
the guard replaces the zero norm by `1` before dividing. -/
theorem vec_normalize_zero : (⟨0, 0⟩ : Vec ℝ).normalize = ⟨1, 0⟩ := by
  simp [Vec.normalize, Vec.setNorm, Vec.norm, Vec.normSq]

/-- C7: `normalize(v)` has norm exactly 1 (the real-number idealisation of
"within floating tolerance") for every nonzero `v`, and on the zero
vector it is exactly `(1, 0)` via the `setNorm` guard. -/
theorem normalize_norm_one :
    (∀ v : Vec ℝ, v ≠ ⟨0, 0⟩ → v.normalize.norm = 1) ∧
    (⟨0, 0⟩ : Vec ℝ).normalize = ⟨1, 0⟩ := by
  refine ⟨?_, vec_normalize_zero⟩
  intro v hv
  have hsq : 0 < v.normSq := normSq_pos v hv
  have hn : 0 < v.norm := Real.sqrt_pos.mpr hsq
  have hne : ¬ v.norm = 0 := ne_of_gt hn
  have hNN : v.norm * v.norm = v.normSq := Real.mul_self_sqrt hsq.le
  rcases v with ⟨x, y⟩
  simp only [Vec.normSq] at hsq hNN
  simp only [Vec.normalize, Vec.setNorm, if_neg hne]
  simp only [Vec.norm, Vec.normSq] at hne hNN ⊢
  have key : x * (1 / Real.sqrt (x * x + y * y)) * (x * (1 / Real.sqrt (x * x + y * y)))
      + y * (1 / Real.sqrt (x * x + y * y)) * (y * (1 / Real.sqrt (x * x + y * y)))
      = (x * x + y * y) / (Real.sqrt (x * x + y * y) * Real.sqrt (x * x + y * y)) := by
    field_simp
  rw [key, hNN, div_self (ne_of_gt hsq), Real.sqrt_one]

/-- C7 witness: the 3-4-5 vector normalizes to norm 1. -/
theorem normalize_norm_one_witness :
    (⟨3, 4⟩ : Vec ℝ) ≠ ⟨0, 0⟩ ∧ (⟨3, 4⟩ : Vec ℝ).normalize.norm = 1 := by
  have hne : (⟨3, 4⟩ : Vec ℝ) ≠ ⟨0, 0⟩ := by
    intro h
    have hx := congrArg Vec.x h
    norm_num at hx
  exact ⟨hne, normalize_norm_one.1 ⟨3, 4⟩ hne⟩

/-- C8: reflection about any nonzero normal is an involution,
`reflect(reflect(v, n), n) = v` (exact over the reals). -/
theorem reflect_involution (v n : Vec ℝ) (hn : n ≠ ⟨0, 0⟩) :
    (v.reflect n).reflect n = v := by
  have hs : 0 < n.normSq := normSq_pos n hn
  rcases v with ⟨a, b⟩
  rcases n with ⟨c, d⟩
  simp only [Vec.normSq] at hs
  have hs' : c * c + d * d ≠ 0 := ne_of_gt hs
  simp only [Vec.reflect, Vec.subtract, Vec.times, Vec.multiply, Vec.dot, Vec.normSq]
  ext
  · field_simp
    ring
  · field_simp
    ring

/-- C8 witness: reflecting `(3, 4)` about the normal `(0, 1)` twice gives
back `(3, 4)`. -/
theorem reflect_involution_witness :
    (⟨0, 1⟩ : Vec ℝ) ≠ ⟨0, 0⟩ ∧
    ((⟨3, 4⟩ : Vec ℝ).reflect ⟨0, 1⟩).reflect ⟨0, 1⟩ = ⟨3, 4⟩ := by
  have hn : (⟨0, 1⟩ : Vec ℝ) ≠ ⟨0, 0⟩ := by
    intro h
    have hy := congrArg Vec.y h
    norm_num at hy
  exact ⟨hn, reflect_involution ⟨3, 4⟩ ⟨0, 1⟩ hn⟩

/-- C9 counterexample: at the concrete input `v = (3, 4)`, `u = (0, 0)`,
both projections onto the zero-length target produce plain finite values
— `proj` gives `(3, 0)` and `clampedProj` gives `(0, 0)` — because
`normalize` of the zero target snaps to `(1, 0)` through its guard and no
division by zero is ever performed; nothing `NaN`/`Infinity`-like
propagates, contradicting the claim. -/
theorem proj_zero_target_cex :
    (⟨3, 4⟩ : Vec ℝ).proj ⟨0, 0⟩ = ⟨3, 0⟩ ∧
    (⟨3, 4⟩ : Vec ℝ).clampedProj ⟨0, 0⟩ = ⟨0, 0⟩ := by
  have hz := vec_normalize_zero
  have hn0 : (⟨0, 0⟩ : Vec ℝ).norm = 0 := by simp [Vec.norm, Vec.normSq]
  constructor
  · simp [Vec.proj, hz, Vec.dot, Vec.multiply]
  · simp [Vec.clampedProj, hz, hn0, Vec.dot, Vec.multiply]

/-- C9 (amended): zero-length `proj`/`clampedProj` targets do NOT
propagate `NaN`/`Infinity`: both go through `normalize`, whose zero
guard snaps the target to `(1, 0)`, so for every `v` the code returns the
defined values `proj(v, 0) = (v.x, 0)` and `clampedProj(v, 0) = (0, 0)`
(the scalar factor `min(0, max(0, v.x))` is always `0`). Only
`projScalar` (not cited by the claim) divides by the zero norm. -/
theorem proj_zero_target (v : Vec ℝ) :
    v.proj ⟨0, 0⟩ = ⟨v.x, 0⟩ ∧ v.clampedProj ⟨0, 0⟩ = ⟨0, 0⟩ := by
  have hz := vec_normalize_zero
  have hn0 : (⟨0, 0⟩ : Vec ℝ).norm = 0 := by simp [Vec.norm, Vec.normSq]
  have hmin : min (0 : ℝ) (max 0 v.x) = 0 := min_eq_left (le_max_left 0 v.x)
  constructor
  · simp [Vec.proj, hz, Vec.dot, Vec.multiply]
  · simp [Vec.clampedProj, hz, hn0, Vec.dot, Vec.multiply, hmin]

/-- C9 witness: the amended statement evaluated at `v = (5, -7)`. -/
theorem proj_zero_target_witness :
    (⟨5, -7⟩ : Vec ℝ).proj ⟨0, 0⟩ = ⟨5, 0⟩ ∧
    (⟨5, -7⟩ : Vec ℝ).clampedProj ⟨0, 0⟩ = ⟨0, 0⟩ :=
  proj_zero_target ⟨5, -7⟩
